import Mathlib

/-!
Verification of the addon-invocation and readiness-polling core of
`scripts/wrappers/common/utils.py` (microk8s).

The Python code is shallowly embedded: pure string manipulation becomes
Lean functions on `String`/`List Char`; the side effects of `xable`
(click.echo / click.secho messages, `subprocess.run` dispatches, `sys.exit`)
become an explicit trace of events plus an optional exit code; the readiness
poller becomes a fuel-indexed loop over an abstract clock and probe trace.
-/

namespace Microk8s

/-! ## Character-list utilities (Python string primitives) -/

/-- Boolean test that `p` is a prefix of the second list (used to model
Python's substring operator and filename matching). -/
def isPrefixChars : List Char → List Char → Bool
  | [], _ => true
  | _ :: _, [] => false
  | p :: ps, h :: hs => p == h && isPrefixChars ps hs

/-- Boolean test that `pat` occurs contiguously inside the second list.
Models Python's `pat in s` substring operator. -/
def containsChars (pat : List Char) : List Char → Bool
  | [] => isPrefixChars pat []
  | h :: hs => isPrefixChars pat (h :: hs) || containsChars pat hs

/-- Model of Python's `pat in hay` for strings (substring containment). -/
def strContains (hay pat : String) : Bool :=
  containsChars pat.data hay.data

/-- Remove the exact prefix `p` from `l`, or fail.  Used to model filename
prefix/suffix stripping in the `enable.*.sh` glob. -/
def dropPfx : List Char → List Char → Option (List Char)
  | [], l => some l
  | _ :: _, [] => none
  | p :: ps, x :: xs => if p == x then dropPfx ps xs else none

/-- Model of Python's `s.split(c)` (split on every occurrence of the
separator; `"".split(c) == [""]`, `"a::b".split(":") == ["a","","b"]`). -/
def pySplitAux (c : Char) : List Char → List Char → List (List Char)
  | [], acc => [acc.reverse]
  | x :: xs, acc =>
    if x == c then acc.reverse :: pySplitAux c xs []
    else pySplitAux c xs (x :: acc)

/-- Python `s.split(c)` on strings. -/
def pySplit (s : String) (c : Char) : List String :=
  (pySplitAux c s.data []).map String.mk

/-- Model of Python's `sep.join(l)`. -/
def joinList (sep : String) : List String → String
  | [] => ""
  | [x] => x
  | x :: y :: ys => x ++ sep ++ joinList sep (y :: ys)

/-! ## Data model of one `xable` run

A run of `xable` is observed through the ordered trace of its effects:
informational messages (`click.echo`), error-styled messages
(`click.secho(..., err=True)` / `click.echo(..., err=True)`), and script
dispatches (`subprocess.run`), plus an optional `sys.exit` code. -/

/-- One observable effect of `xable`. -/
inductive Event where
  | echoMsg (msg : String)
  | errMsg (msg : String)
  | dispatch (script : String) (args : List String)
deriving DecidableEq, Repr

/-- The outcome of one `xable` run: the ordered event trace and the
`sys.exit` code, `none` when the function falls through normally. -/
structure XableResult where
  events : List Event
  exitCode : Option Nat
deriving DecidableEq, Repr

/-- Model of `addon, *args = tok.split(':')` (utils.py lines 163 and 169):
the addon name is everything before the first colon, the remaining
colon-separated pieces become positional arguments. -/
def splitTok (tok : String) : String × List String :=
  match pySplit tok ':' with
  | [] => ("", [])
  | n :: rest => (n, rest)

/-- Script filename convention of utils.py lines 164 and 201:
`'%s.%s.sh' % (action, addon)`.  The constant actions-directory path prefix
is elided. -/
def scriptName (action addon : String) : String :=
  action ++ "." ++ addon ++ ".sh"

/-- Message of utils.py lines 161 and 172: `"Addon %s is already %sd."`. -/
def skipMsg (tok action : String) : String :=
  "Addon " ++ tok ++ " is already " ++ action ++ "d."

/-- Message of utils.py line 176: ``"Addon `%s` not found."``. -/
def notFoundMsg (addon : String) : String :=
  "Addon `" ++ addon ++ "` not found."

/-- Message of utils.py line 177: the guidance joins the existing-addon set
with `'\n - '` in its iteration order.  The list argument stands for the
Python set in the (arbitrary) order its iterator produces. -/
def availableMsg (existing_addons : List String) : String :=
  "The available addons are:\n - " ++ joinList "\n - " existing_addons

/-- Message of utils.py lines 181-198 (colorization and dedent elided,
`action.title()` modelled by `String.capitalize`). -/
def ambiguousMsg (action : String) : String :=
  "Can\x27t pass string arguments and flag arguments simultaneously!\n\n"
    ++ action.capitalize
    ++ " an addon with only one argument style at a time:\n\n    microk8s "
    ++ action ++ " foo:\x27bar\x27\nor\n\n    microk8s " ++ action
    ++ " foo --bar\n"

/-- Mode-selection condition of utils.py line 158:
`all(a.split(':')[0] in existing_addons for a in addons) and len(addons) > 1`. -/
def multiCond (addons existing_addons : List String) : Bool :=
  addons.all (fun a => decide ((splitTok a).1 ∈ existing_addons))
    && decide (1 < addons.length)

/-- Body of the multi-addon loop of utils.py lines 159-164, for one token.
Note the skip test (line 160) compares the RAW token (before the split on
line 163) against the already-xabled set. -/
def multiStep (action : String) (xabled_addons : List String) (tok : String) :
    Event :=
  if tok ∈ xabled_addons ∧ tok ≠ "kubeflow" then
    .echoMsg (skipMsg tok action)
  else
    .dispatch (scriptName action (splitTok tok).1) (splitTok tok).2

/-- Model of `xable(action, addons, xabled_addons)` (utils.py lines 147-205).
`existing_addons` stands for the set computed on line 154, in its iteration
order (see `deriveExisting` for the derivation itself).  The result is `none`
exactly when `addons` is empty, where `addons[0]` on line 169 would raise an
uncaught IndexError. -/
def xable (action : String) (addons xabled_addons existing_addons : List String) :
    Option XableResult :=
  if multiCond addons existing_addons then
    some { events := addons.map (multiStep action xabled_addons), exitCode := none }
  else
    match addons with
    | [] => none
    | a0 :: rest =>
      if (splitTok a0).1 ∈ xabled_addons ∧ (splitTok a0).1 ≠ "kubeflow" then
        some { events := [.echoMsg (skipMsg (splitTok a0).1 action)],
               exitCode := some 0 }
      else if (splitTok a0).1 ∉ existing_addons then
        some { events := [.errMsg (notFoundMsg (splitTok a0).1),
                          .errMsg (availableMsg existing_addons)],
               exitCode := some 1 }
      else if (splitTok a0).2 ≠ [] ∧ rest ≠ [] then
        some { events := [.errMsg (ambiguousMsg action)], exitCode := some 1 }
      else if (splitTok a0).2 ≠ [] then
        some { events := [.dispatch (scriptName action (splitTok a0).1)
                            (splitTok a0).2],
               exitCode := none }
      else
        some { events := [.dispatch (scriptName action (splitTok a0).1) rest],
               exitCode := none }

/-- Projection of a dispatch event to its (script, args) pair. -/
def dispProj : Event → Option (String × List String)
  | .dispatch s a => some (s, a)
  | _ => none

/-- The ordered list of script dispatches performed by a run. -/
def dispatches (r : XableResult) : List (String × List String) :=
  r.events.filterMap dispProj

/-! ## Derivation of the existing-addon set (utils.py line 154) -/

/-- Extract the middle part of a filename of shape `pfx ++ mid ++ sfx`, or
fail when the filename does not have that shape.  Models one step of
`{sh.with_suffix('').name[7:] for sh in actions.glob('enable.*.sh')}`:
a filename matches the glob `enable.*.sh` exactly when it decomposes as
`"enable." ++ mid ++ ".sh"`, and `with_suffix('')` followed by `name[7:]`
then yields `mid`. -/
def globStrip (pfx sfx f : String) : Option String :=
  (dropPfx pfx.data f.data).bind fun r =>
    (dropPfx sfx.data.reverse r.reverse).map fun m => String.mk m.reverse

/-- Model of utils.py line 154: the existing-addon names derived from the
directory listing.  Note the glob pattern is the literal `'enable.*.sh'`
for BOTH actions; `action` is not interpolated into the pattern. -/
def deriveExisting (files : List String) : List String :=
  files.filterMap (globStrip "enable." ".sh")

/-- Spec-stated variant of the derivation, written from the specification
words only ("files matching `<action>.*.sh`, enable.*.sh for enable,
disable.*.sh for disable, stripping the action prefix and the .sh suffix"),
for comparison with `deriveExisting`. -/
def deriveExistingSpec (action : String) (files : List String) : List String :=
  files.filterMap (globStrip (action ++ ".") ".sh")

/-! ## Readiness probing (utils.py lines 53-62 and 72-84) -/

/-- Model of `is_cluster_ready()` (utils.py lines 53-62).  A probe sample is
either the pair `(service_output, node_output)` returned by the two
`kubectl_get` calls, or `Except.error ()` when either call raises.  The
function catches every exception and returns `false` for it. -/
def is_cluster_ready (sample : Except Unit (String × String)) : Bool :=
  match sample with
  | .error _ => false
  | .ok (serviceOut, nodeOut) =>
    strContains nodeOut "Ready" && strContains serviceOut "service/kubernetes"

/-- Time (in seconds) slept by the loop body of `wait_for_ready` for one
sampler outcome: the `except Exception: time.sleep(2)` arm (utils.py lines
81-82) runs only when the sampled call raises. -/
def bodySleep (s : Except Unit Bool) : Nat :=
  match s with
  | .ok _ => 0
  | .error _ => 2

/-- The sampler actually used by `wait_for_ready`: a call to
`is_cluster_ready()`.  Since `is_cluster_ready` catches every exception
itself (utils.py line 61), the call never raises: every sample is `.ok`. -/
def clusterSampler (probe : Nat → Except Unit (String × String)) :
    Nat → Except Unit Bool :=
  fun n => .ok (is_cluster_ready (probe n))

/-- Fuel-indexed model of the `while True` loop of `wait_for_ready`
(utils.py lines 76-84).  `clock i` is the value returned by the i-th call of
`time.time()` (`clock 0 = start_time`; the check of iteration `n` reads
`clock (n+1)`); `sampler n` is the outcome of the body's sampled call in
iteration `n`.  `none` means the loop was still running after `fuel`
iterations. -/
def waitAux (timeout startTime : Int) (clock : Nat → Int)
    (sampler : Nat → Except Unit Bool) (n : Nat) (isReady : Bool)
    (fuel : Nat) : Option Bool :=
  match fuel with
  | 0 => none
  | f + 1 =>
    if (decide (0 < timeout) && decide (startTime + timeout < clock (n + 1)))
        || isReady then
      some isReady
    else
      match sampler n with
      | .ok b => waitAux timeout startTime clock sampler (n + 1) b f
      | .error _ => waitAux timeout startTime clock sampler (n + 1) isReady f

/-- Model of `wait_for_ready(wait_ready, timeout)` (utils.py lines 72-84),
with the wall clock and the probe outcomes abstracted as traces. -/
def wait_for_ready (timeout : Int) (clock : Nat → Int)
    (probe : Nat → Except Unit (String × String)) (fuel : Nat) : Option Bool :=
  waitAux timeout (clock 0) clock (clusterSampler probe) 0 false fuel

/-! ## Helper lemmas -/

theorem multiCond_eq_true_iff (addons existing_addons : List String) :
    multiCond addons existing_addons = true ↔
      ((∀ a ∈ addons, (splitTok a).1 ∈ existing_addons) ∧ 1 < addons.length) := by
  simp [multiCond, List.all_eq_true]

theorem xable_multi (action : String) (addons xabled existing : List String)
    (h : multiCond addons existing = true) :
    xable action addons xabled existing =
      some ⟨addons.map (multiStep action xabled), none⟩ := by
  simp [xable, h]

theorem filterMap_dispProj_map_multiStep (action : String) (xabled : List String) :
    ∀ addons : List String,
      (addons.map (multiStep action xabled)).filterMap dispProj =
        (addons.filter
            (fun tok => !(decide (tok ∈ xabled ∧ tok ≠ "kubeflow")))).map
          (fun tok => (scriptName action (splitTok tok).1, (splitTok tok).2))
  | [] => by simp
  | tok :: toks => by
    by_cases hc : tok ∈ xabled ∧ tok ≠ "kubeflow"
    · simp [multiStep, hc, dispProj, List.filter_cons,
        filterMap_dispProj_map_multiStep action xabled toks]
    · simp only [List.map_cons, List.filterMap_cons, multiStep, if_neg hc,
        dispProj, List.filter_cons,
        filterMap_dispProj_map_multiStep action xabled toks]
      rw [if_pos (by simpa using Decidable.not_and_iff_or_not.mp hc)]
      simp

theorem xable_single_skip (action a0 : String) (rest xabled existing : List String)
    (h : multiCond (a0 :: rest) existing = false)
    (hs : (splitTok a0).1 ∈ xabled ∧ (splitTok a0).1 ≠ "kubeflow") :
    xable action (a0 :: rest) xabled existing =
      some ⟨[.echoMsg (skipMsg (splitTok a0).1 action)], some 0⟩ := by
  simp [xable, h, hs]

theorem xable_single_notFound (action a0 : String)
    (rest xabled existing : List String)
    (h : multiCond (a0 :: rest) existing = false)
    (hskip : ¬((splitTok a0).1 ∈ xabled ∧ (splitTok a0).1 ≠ "kubeflow"))
    (hex : (splitTok a0).1 ∉ existing) :
    xable action (a0 :: rest) xabled existing =
      some ⟨[.errMsg (notFoundMsg (splitTok a0).1),
             .errMsg (availableMsg existing)], some 1⟩ := by
  simp [xable, h, hskip, hex]

theorem xable_single_ambiguous (action a0 : String)
    (rest xabled existing : List String)
    (h : multiCond (a0 :: rest) existing = false)
    (hskip : ¬((splitTok a0).1 ∈ xabled ∧ (splitTok a0).1 ≠ "kubeflow"))
    (hex : (splitTok a0).1 ∈ existing)
    (hargs : (splitTok a0).2 ≠ []) (hrest : rest ≠ []) :
    xable action (a0 :: rest) xabled existing =
      some ⟨[.errMsg (ambiguousMsg action)], some 1⟩ := by
  simp [xable, h, hskip, hex, hargs, hrest]

theorem xable_single_dispatch_colon (action a0 : String)
    (rest xabled existing : List String)
    (h : multiCond (a0 :: rest) existing = false)
    (hskip : ¬((splitTok a0).1 ∈ xabled ∧ (splitTok a0).1 ≠ "kubeflow"))
    (hex : (splitTok a0).1 ∈ existing)
    (hargs : (splitTok a0).2 ≠ []) (hrest : rest = []) :
    xable action (a0 :: rest) xabled existing =
      some ⟨[.dispatch (scriptName action (splitTok a0).1) (splitTok a0).2],
            none⟩ := by
  subst hrest
  simp [xable, h, hskip, hex, hargs]

theorem xable_single_dispatch_flags (action a0 : String)
    (rest xabled existing : List String)
    (h : multiCond (a0 :: rest) existing = false)
    (hskip : ¬((splitTok a0).1 ∈ xabled ∧ (splitTok a0).1 ≠ "kubeflow"))
    (hex : (splitTok a0).1 ∈ existing)
    (hargs : (splitTok a0).2 = []) :
    xable action (a0 :: rest) xabled existing =
      some ⟨[.dispatch (scriptName action (splitTok a0).1) rest], none⟩ := by
  simp [xable, h, hskip, hex, hargs]

theorem xable_single_cases (action a0 : String)
    (rest xabled existing : List String)
    (h : multiCond (a0 :: rest) existing = false) :
    (xable action (a0 :: rest) xabled existing =
        some ⟨[.echoMsg (skipMsg (splitTok a0).1 action)], some 0⟩
      ∧ ((splitTok a0).1 ∈ xabled ∧ (splitTok a0).1 ≠ "kubeflow"))
    ∨ (xable action (a0 :: rest) xabled existing =
        some ⟨[.errMsg (notFoundMsg (splitTok a0).1),
               .errMsg (availableMsg existing)], some 1⟩
      ∧ ¬((splitTok a0).1 ∈ xabled ∧ (splitTok a0).1 ≠ "kubeflow")
      ∧ (splitTok a0).1 ∉ existing)
    ∨ (xable action (a0 :: rest) xabled existing =
        some ⟨[.errMsg (ambiguousMsg action)], some 1⟩
      ∧ ¬((splitTok a0).1 ∈ xabled ∧ (splitTok a0).1 ≠ "kubeflow")
      ∧ (splitTok a0).1 ∈ existing ∧ (splitTok a0).2 ≠ [] ∧ rest ≠ [])
    ∨ (xable action (a0 :: rest) xabled existing =
        some ⟨[.dispatch (scriptName action (splitTok a0).1) (splitTok a0).2],
              none⟩
      ∧ ¬((splitTok a0).1 ∈ xabled ∧ (splitTok a0).1 ≠ "kubeflow")
      ∧ (splitTok a0).1 ∈ existing ∧ (splitTok a0).2 ≠ [] ∧ rest = [])
    ∨ (xable action (a0 :: rest) xabled existing =
        some ⟨[.dispatch (scriptName action (splitTok a0).1) rest], none⟩
      ∧ ¬((splitTok a0).1 ∈ xabled ∧ (splitTok a0).1 ≠ "kubeflow")
      ∧ (splitTok a0).1 ∈ existing ∧ (splitTok a0).2 = []) := by
  by_cases hs : (splitTok a0).1 ∈ xabled ∧ (splitTok a0).1 ≠ "kubeflow"
  · exact Or.inl ⟨xable_single_skip action a0 rest xabled existing h hs, hs⟩
  by_cases hex : (splitTok a0).1 ∈ existing
  · by_cases hargs : (splitTok a0).2 = []
    · exact Or.inr (Or.inr (Or.inr (Or.inr
        ⟨xable_single_dispatch_flags action a0 rest xabled existing h hs hex
           hargs, hs, hex, hargs⟩)))
    · by_cases hrest : rest = []
      · exact Or.inr (Or.inr (Or.inr (Or.inl
          ⟨xable_single_dispatch_colon action a0 rest xabled existing h hs hex
             hargs hrest, hs, hex, hargs, hrest⟩)))
      · exact Or.inr (Or.inr (Or.inl
          ⟨xable_single_ambiguous action a0 rest xabled existing h hs hex
             hargs hrest, hs, hex, hargs, hrest⟩))
  · exact Or.inr (Or.inl
      ⟨xable_single_notFound action a0 rest xabled existing h hs hex, hs, hex⟩)

theorem isPrefixChars_self_append :
    ∀ p rest : List Char, isPrefixChars p (p ++ rest) = true
  | [], _ => rfl
  | x :: xs, rest => by
    simp [isPrefixChars, isPrefixChars_self_append xs rest]

theorem containsChars_of_here (pat hay : List Char)
    (h : isPrefixChars pat hay = true) : containsChars pat hay = true := by
  cases hay <;> simp [containsChars, h]

theorem containsChars_append_left :
    ∀ (front pat rest : List Char), containsChars pat rest = true →
      containsChars pat (front ++ rest) = true
  | [], _, _, h => by simpa using h
  | c :: cs, pat, rest, h => by
    simp only [List.cons_append, containsChars, Bool.or_eq_true]
    exact Or.inr (containsChars_append_left cs pat rest h)

theorem strContains_of_decomp (hay pat : String) (pre post : List Char)
    (h : hay.data = pre ++ pat.data ++ post) : strContains hay pat = true := by
  unfold strContains
  rw [h, List.append_assoc]
  exact containsChars_append_left pre _ _
    (containsChars_of_here _ _ (isPrefixChars_self_append pat.data post))

theorem joinList_mem_decomp (sep : String) :
    ∀ (l : List String) (x : String), x ∈ l →
      ∃ pre post, (joinList sep l).data = pre ++ x.data ++ post
  | [], x, hx => absurd hx (List.not_mem_nil x)
  | [y], x, hx => by
    have : x = y := by simpa using hx
    subst this
    exact ⟨[], [], by simp [joinList]⟩
  | y :: z :: zs, x, hx => by
    rcases List.mem_cons.mp hx with hxy | hxtail
    · subst hxy
      refine ⟨[], sep.data ++ (joinList sep (z :: zs)).data, ?_⟩
      simp [joinList, String.data_append]
    · obtain ⟨pre, post, hp⟩ := joinList_mem_decomp sep (z :: zs) x hxtail
      refine ⟨y.data ++ sep.data ++ pre, post, ?_⟩
      simp [joinList, String.data_append, hp]

theorem availableMsg_contains (existing : List String) (x : String)
    (hx : x ∈ existing) : strContains (availableMsg existing) x = true := by
  obtain ⟨pre, post, hp⟩ := joinList_mem_decomp "\n - " existing x hx
  refine strContains_of_decomp _ _
    ("The available addons are:\n - ".data ++ pre) post ?_
  simp [availableMsg, String.data_append, hp]

theorem dropPfx_eq_some :
    ∀ (p l r : List Char), dropPfx p l = some r ↔ l = p ++ r
  | [], l, r => by simp [dropPfx]
  | p :: ps, [], r => by simp [dropPfx]
  | p :: ps, x :: xs, r => by
    by_cases hpx : p = x
    · subst hpx
      simp [dropPfx, dropPfx_eq_some ps xs r]
    · simp [dropPfx, hpx, Ne.symm hpx]

theorem globStrip_eq_some (pfx sfx f m : String) :
    globStrip pfx sfx f = some m ↔
      f.data = pfx.data ++ m.data ++ sfx.data := by
  obtain ⟨md⟩ := m
  unfold globStrip
  constructor
  · intro h
    rw [Option.bind_eq_some] at h
    obtain ⟨r, hr, hm⟩ := h
    rw [Option.map_eq_some'] at hm
    obtain ⟨m2, hm2, hmm⟩ := hm
    rw [dropPfx_eq_some] at hr hm2
    have hrr : r = m2.reverse ++ sfx.data := by
      have := congrArg List.reverse hm2
      simpa using this
    have hmd : md = m2.reverse := by
      have := congrArg String.data hmm
      simpa using this.symm
    rw [hr, hrr, hmd, List.append_assoc]
  · intro h
    have h1 : dropPfx pfx.data f.data = some (md ++ sfx.data) :=
      (dropPfx_eq_some _ _ _).mpr (by rw [h, List.append_assoc])
    rw [h1]
    have h2 : dropPfx sfx.data.reverse (sfx.data.reverse ++ md.reverse) =
        some md.reverse :=
      (dropPfx_eq_some _ _ _).mpr rfl
    simp [List.reverse_append, h2]

theorem mem_deriveExisting (files : List String) (name : String) :
    name ∈ deriveExisting files ↔ ("enable." ++ name ++ ".sh") ∈ files := by
  unfold deriveExisting
  rw [List.mem_filterMap]
  constructor
  · rintro ⟨f, hf, hstrip⟩
    rw [globStrip_eq_some] at hstrip
    have : f = "enable." ++ name ++ ".sh" :=
      String.ext (by rw [hstrip]; simp [String.data_append])
    rwa [this] at hf
  · intro hf
    refine ⟨_, hf, ?_⟩
    rw [globStrip_eq_some]
    simp [String.data_append]

theorem pySplitAux_no_sep (c : Char) :
    ∀ (l acc : List Char), (∀ x ∈ l, x ≠ c) →
      pySplitAux c l acc = [acc.reverse ++ l]
  | [], acc, _ => by simp [pySplitAux]
  | x :: xs, acc, h => by
    have hx : x ≠ c := h x (List.mem_cons_self x xs)
    simp only [pySplitAux, beq_iff_eq, if_neg hx]
    rw [pySplitAux_no_sep c xs (x :: acc) (fun y hy => h y (List.mem_cons_of_mem x hy))]
    simp

theorem pySplitAux_sep (c : Char) :
    ∀ (l acc rest : List Char), (∀ x ∈ l, x ≠ c) →
      pySplitAux c (l ++ c :: rest) acc =
        (acc.reverse ++ l) :: pySplitAux c rest []
  | [], acc, rest, _ => by simp [pySplitAux]
  | x :: xs, acc, rest, h => by
    have hx : x ≠ c := h x (List.mem_cons_self x xs)
    simp only [List.cons_append, pySplitAux, beq_iff_eq, if_neg hx,
      List.append_eq]
    rw [pySplitAux_sep c xs (x :: acc) rest
      (fun y hy => h y (List.mem_cons_of_mem x hy))]
    simp

theorem splitTok_two_colons (n x y : String)
    (hn : ∀ ch ∈ n.data, ch ≠ ':') (hx : ∀ ch ∈ x.data, ch ≠ ':')
    (hy : ∀ ch ∈ y.data, ch ≠ ':') :
    splitTok (n ++ ":" ++ x ++ ":" ++ y) = (n, [x, y]) := by
  obtain ⟨nd⟩ := n
  obtain ⟨xd⟩ := x
  obtain ⟨yd⟩ := y
  have hdata : (String.mk nd ++ ":" ++ String.mk xd ++ ":" ++ String.mk yd).data
      = nd ++ ':' :: (xd ++ ':' :: yd) := by
    simp [String.data_append]
  unfold splitTok pySplit
  rw [hdata, pySplitAux_sep ':' nd [] _ hn, pySplitAux_sep ':' xd [] _ hx,
    pySplitAux_no_sep ':' yd [] hy]
  simp

/-! ## Readiness-poller helper lemmas -/

theorem clusterSampler_eq (probe : Nat → Except Unit (String × String))
    (n : Nat) : clusterSampler probe n = .ok (is_cluster_ready (probe n)) := rfl

theorem waitAux_never_ready (timeout startTime : Int) (clock : Nat → Int)
    (sampler : Nat → Except Unit Bool) (hs : ∀ n, sampler n = .ok false)
    (hpos : 0 < timeout) :
    ∀ (fuel n : Nat), startTime + timeout < clock (n + fuel + 1) →
      waitAux timeout startTime clock sampler n false (fuel + 1) = some false
  | 0, n, hlt => by
    unfold waitAux
    rw [if_pos]
    simp only [Nat.add_zero] at hlt
    simp [hpos, hlt]
  | fuel + 1, n, hlt => by
    unfold waitAux
    by_cases hc : ((decide (0 < timeout)
        && decide (startTime + timeout < clock (n + 1))) || false) = true
    · rw [if_pos hc]
    · rw [if_neg hc, hs n]
      exact waitAux_never_ready timeout startTime clock sampler hs hpos fuel
        (n + 1) (by have e : n + 1 + fuel + 1 = n + (fuel + 1) + 1 := by omega
                    rw [e]; exact hlt)

theorem waitAux_false_bound (timeout startTime : Int) (clock : Nat → Int)
    (sampler : Nat → Except Unit Bool) :
    ∀ (fuel n : Nat) (isReady : Bool),
      waitAux timeout startTime clock sampler n isReady fuel = some false →
        0 < timeout ∧ ∃ m, startTime + timeout < clock m
  | 0, n, isReady, h => by simp [waitAux] at h
  | fuel + 1, n, isReady, h => by
    unfold waitAux at h
    split at h
    · next hc =>
      have hr : isReady = false := by
        have := Option.some.inj h
        exact this
      subst hr
      simp only [Bool.or_false, Bool.and_eq_true, decide_eq_true_eq] at hc
      exact ⟨hc.1, n + 1, hc.2⟩
    · next hc =>
      cases hsamp : sampler n with
      | ok b =>
        rw [hsamp] at h
        exact waitAux_false_bound timeout startTime clock sampler fuel (n + 1) b h
      | error e =>
        rw [hsamp] at h
        exact waitAux_false_bound timeout startTime clock sampler fuel (n + 1)
          isReady h

theorem waitAux_ready_exit (timeout startTime : Int) (clock : Nat → Int)
    (sampler : Nat → Except Unit Bool) :
    ∀ (k n : Nat), (∀ i, i < k → sampler (n + i) = .ok false) →
      (∀ i, i ≤ k → ¬(0 < timeout ∧ startTime + timeout < clock (n + i + 1))) →
      sampler (n + k) = .ok true →
      waitAux timeout startTime clock sampler n false (k + 2) = some true
  | 0, n, _, hdl, hk => by
    unfold waitAux
    rw [if_neg]
    · rw [show n + 0 = n from rfl] at hk
      rw [hk]
      unfold waitAux
      rw [if_pos (by simp)]
    · have h0 := hdl 0 (Nat.le_refl 0)
      simp only [Nat.add_zero] at h0
      simp only [Bool.or_false, Bool.and_eq_true, decide_eq_true_eq]
      exact h0
  | k + 1, n, hpre, hdl, hk => by
    unfold waitAux
    rw [if_neg]
    · have h0 : sampler n = .ok false := by
        have := hpre 0 (Nat.succ_pos k)
        simpa using this
      rw [h0]
      refine waitAux_ready_exit timeout startTime clock sampler k (n + 1)
        (fun i hi => ?_) (fun i hi => ?_) ?_
      · have := hpre (i + 1) (by omega)
        have e : n + (i + 1) = n + 1 + i := by omega
        rwa [e] at this
      · have := hdl (i + 1) (by omega)
        have e : n + (i + 1) + 1 = n + 1 + i + 1 := by omega
        rwa [e] at this
      · have e : n + (k + 1) = n + 1 + k := by omega
        rwa [e] at hk
    · have h0 := hdl 0 (Nat.zero_le (k + 1))
      simp only [Nat.add_zero] at h0
      simp only [Bool.or_false, Bool.and_eq_true, decide_eq_true_eq]
      exact h0

theorem waitAux_no_deadline (timeout startTime : Int) (clock : Nat → Int)
    (sampler : Nat → Except Unit Bool) (ht : timeout ≤ 0)
    (hs : ∀ n, sampler n = .ok false) :
    ∀ (fuel n : Nat),
      waitAux timeout startTime clock sampler n false fuel = none
  | 0, _ => rfl
  | fuel + 1, n => by
    unfold waitAux
    have hd : decide (0 < timeout) = false := decide_eq_false (by omega)
    rw [if_neg (by simp [hd])]
    rw [hs n]
    exact waitAux_no_deadline timeout startTime clock sampler ht hs fuel (n + 1)

/-! ## Claim theorems -/

set_option maxRecDepth 100000

/-- C1: a request is resolved in multi-addon mode iff every token, stripped
of its colon-value suffix, is a member of the existing-addon set and more
than one token is present; otherwise it is resolved in single-addon mode,
where only the first token is interpreted as addon name plus optional
colon-value and (when the first token carries no colon-value and passes the
gate and existence checks) all remaining tokens are forwarded verbatim as
flag-style arguments to that one addon's script. -/
theorem C1_mode_selection (action : String)
    (addons xabled existing : List String) (a0 : String) (rest : List String)
    (h : addons = a0 :: rest) :
    (multiCond addons existing = true ↔
      ((∀ a ∈ addons, (splitTok a).1 ∈ existing) ∧ 1 < addons.length))
    ∧ (multiCond addons existing = false →
        (splitTok a0).2 = [] →
        ¬((splitTok a0).1 ∈ xabled ∧ (splitTok a0).1 ≠ "kubeflow") →
        (splitTok a0).1 ∈ existing →
        xable action addons xabled existing =
          some ⟨[.dispatch (scriptName action (splitTok a0).1) rest],
                none⟩) := by
  subst h
  exact ⟨multiCond_eq_true_iff _ _, fun hm hargs hskip hex =>
    xable_single_dispatch_flags action a0 rest xabled existing hm hskip hex
      hargs⟩

/-- Witness for C1 at the concrete single-addon scenario
`existing = ["dns"]`, tokens `["dns", "--flag1", "--flag2"]`. -/
theorem C1_mode_selection_witness :
    xable "enable" ["dns", "--flag1", "--flag2"] [] ["dns"] =
      some ⟨[.dispatch (scriptName "enable" "dns") ["--flag1", "--flag2"]],
            none⟩ :=
  (C1_mode_selection "enable" ["dns", "--flag1", "--flag2"] [] ["dns"] "dns"
    ["--flag1", "--flag2"] rfl).2 (by decide) (by decide) (by decide)
    (by decide)

/-- C2 counterexample: in multi-addon mode the token `"dns:val"` whose addon
NAME `"dns"` is already xabled (and is not kubeflow) is nevertheless
dispatched, not skipped: the skip test compares the raw token, not the
token's addon name. -/
theorem C2_counterexample :
    multiCond ["dns:val", "storage"] ["dns", "storage"] = true
    ∧ (splitTok "dns:val").1 ∈ (["dns"] : List String)
    ∧ (splitTok "dns:val").1 ≠ "kubeflow"
    ∧ xable "enable" ["dns:val", "storage"] ["dns"] ["dns", "storage"] =
        some ⟨[.dispatch "enable.dns.sh" ["val"],
               .dispatch "enable.storage.sh" []], none⟩ := by
  decide

/-- C2 (amended): in single-addon mode the gate skips (message plus success
exit, no dispatch) iff the parsed addon name is in the already-xabled set
and differs from "kubeflow"; in multi-addon mode the same test is applied
per token to the RAW token (name including any colon-value suffix), a
skipped token gets an informational message and no dispatch, and processing
of the remaining tokens continues in order without aborting the batch. -/
theorem C2_idempotency_gate (action : String)
    (addons xabled existing : List String) :
    (multiCond addons existing = true →
      xable action addons xabled existing =
        some ⟨addons.map (multiStep action xabled), none⟩
      ∧ ∀ tok, (multiStep action xabled tok = .echoMsg (skipMsg tok action)
          ↔ (tok ∈ xabled ∧ tok ≠ "kubeflow")))
    ∧ (∀ a0 rest, addons = a0 :: rest → multiCond addons existing = false →
        (xable action addons xabled existing =
            some ⟨[.echoMsg (skipMsg (splitTok a0).1 action)], some 0⟩
          ↔ ((splitTok a0).1 ∈ xabled ∧ (splitTok a0).1 ≠ "kubeflow"))) := by
  constructor
  · intro hm
    refine ⟨xable_multi action addons xabled existing hm, fun tok => ?_⟩
    by_cases hc : tok ∈ xabled ∧ tok ≠ "kubeflow" <;> simp [multiStep, hc]
  · rintro a0 rest rfl hm
    constructor
    · intro heq
      rcases xable_single_cases action a0 rest xabled existing hm with
        ⟨h1, h2⟩ | ⟨h1, _, _⟩ | ⟨h1, _, _, _, _⟩ | ⟨h1, _, _, _, _⟩ |
        ⟨h1, _, _, _⟩
      · exact h2
      all_goals (rw [h1] at heq; simp at heq)
    · exact fun hc => xable_single_skip action a0 rest xabled existing hm hc

/-- Witness for C2 (amended) at the concrete single-addon scenario
`alreadyXabled = ["dns"]`, request `["dns"]`: skip message, exit 0. -/
theorem C2_idempotency_gate_witness :
    xable "enable" ["dns"] ["dns"] ["dns"] =
      some ⟨[.echoMsg (skipMsg "dns" "enable")], some 0⟩ :=
  ((C2_idempotency_gate "enable" ["dns"] ["dns"] ["dns"]).2 "dns" [] rfl
    (by decide)).mpr (by decide)

/-- C3 counterexample: (a) a single-token request whose name is not in the
existing set but IS already xabled exits 0 with a skip message instead of
failing with NotFoundError; (b) the not-found guidance joins the existing
set in its iteration order, so for iteration order `["storage", "dns"]` it
differs from the sorted rendering `["dns", "storage"]`. -/
theorem C3_counterexample :
    xable "enable" ["foo"] ["foo"] ["dns"] =
      some ⟨[.echoMsg (skipMsg "foo" "enable")], some 0⟩
    ∧ xable "enable" ["foo"] [] ["storage", "dns"] =
        some ⟨[.errMsg (notFoundMsg "foo"),
               .errMsg (availableMsg ["storage", "dns"])], some 1⟩
    ∧ availableMsg ["storage", "dns"] ≠ availableMsg ["dns", "storage"] := by
  decide

/-- C3 (amended): for every single-token request whose addon name is not in
the existing set, provided the idempotency gate does not skip it first
(name not already xabled, or name = "kubeflow"), resolution fails with
NotFoundError and exit status 1, and the guidance message lists every
member of the existing set at least once, in the set's iteration order
(not necessarily sorted). -/
theorem C3_not_found (action tok : String) (xabled existing : List String)
    (hex : (splitTok tok).1 ∉ existing)
    (hskip : ¬((splitTok tok).1 ∈ xabled ∧ (splitTok tok).1 ≠ "kubeflow")) :
    xable action [tok] xabled existing =
      some ⟨[.errMsg (notFoundMsg (splitTok tok).1),
             .errMsg (availableMsg existing)], some 1⟩
    ∧ ∀ x ∈ existing, strContains (availableMsg existing) x = true := by
  have hm : multiCond [tok] existing = false := by simp [multiCond]
  exact ⟨xable_single_notFound action tok [] xabled existing hm hskip hex,
    fun x hx => availableMsg_contains existing x hx⟩

/-- Witness for C3 (amended) at `existing = ["dns", "storage"]`, request
`["foo"]`. -/
theorem C3_not_found_witness :
    xable "enable" ["foo"] [] ["dns", "storage"] =
      some ⟨[.errMsg (notFoundMsg "foo"),
             .errMsg (availableMsg ["dns", "storage"])], some 1⟩
    ∧ strContains (availableMsg ["dns", "storage"]) "dns" = true
    ∧ strContains (availableMsg ["dns", "storage"]) "storage" = true := by
  have h := C3_not_found "enable" "foo" [] ["dns", "storage"] (by decide)
    (by decide)
  exact ⟨h.1, h.2 "dns" (by decide), h.2 "storage" (by decide)⟩

/-- C4 counterexample: the single-addon request `["foo:val", "--flag"]`
against `existing = ["dns"]` has a colon-value on the first token and a
trailing token, yet fails with NotFoundError, not AmbiguousArgsError: the
error is NOT independent of the token values. -/
theorem C4_counterexample :
    multiCond ["foo:val", "--flag"] ["dns"] = false
    ∧ (splitTok "foo:val").2 ≠ []
    ∧ xable "enable" ["foo:val", "--flag"] [] ["dns"] =
        some ⟨[.errMsg (notFoundMsg "foo"), .errMsg (availableMsg ["dns"])],
              some 1⟩
    ∧ notFoundMsg "foo" ≠ ambiguousMsg "enable" := by
  decide

/-- C4 (amended): for any single-addon request whose first token carries a
colon-value and which has additional trailing tokens, no dispatch ever
occurs; the failure is AmbiguousArgsError with exit status 1 provided the
addon name is a member of the existing set and the idempotency gate does
not skip it — otherwise the skip (exit 0) or NotFoundError path takes
precedence. -/
theorem C4_ambiguous (action a0 : String) (rest xabled existing : List String)
    (hm : multiCond (a0 :: rest) existing = false)
    (hargs : (splitTok a0).2 ≠ []) (hrest : rest ≠ []) :
    (∀ r, xable action (a0 :: rest) xabled existing = some r →
      dispatches r = [])
    ∧ ((splitTok a0).1 ∈ existing →
        ¬((splitTok a0).1 ∈ xabled ∧ (splitTok a0).1 ≠ "kubeflow") →
        xable action (a0 :: rest) xabled existing =
          some ⟨[.errMsg (ambiguousMsg action)], some 1⟩) := by
  constructor
  · intro r hr
    rcases xable_single_cases action a0 rest xabled existing hm with
      ⟨h1, _⟩ | ⟨h1, _, _⟩ | ⟨h1, _, _, _, _⟩ | ⟨h1, _, _, _, hre⟩ |
      ⟨h1, _, _, ha⟩
    · rw [h1] at hr
      have := Option.some.inj hr
      subst this
      simp [dispatches, dispProj]
    · rw [h1] at hr
      have := Option.some.inj hr
      subst this
      simp [dispatches, dispProj]
    · rw [h1] at hr
      have := Option.some.inj hr
      subst this
      simp [dispatches, dispProj]
    · exact absurd hre hrest
    · exact absurd ha hargs
  · exact fun hex hskip =>
      xable_single_ambiguous action a0 rest xabled existing hm hskip hex
        hargs hrest

/-- Witness for C4 (amended) at the concrete scenario
`existing = ["dns"]`, tokens `["dns:val", "--flag"]`: AmbiguousArgsError,
no dispatch. -/
theorem C4_ambiguous_witness :
    xable "enable" ["dns:val", "--flag"] [] ["dns"] =
      some ⟨[.errMsg (ambiguousMsg "enable")], some 1⟩
    ∧ dispatches ⟨[.errMsg (ambiguousMsg "enable")], some 1⟩ = [] := by
  have h := C4_ambiguous "enable" "dns:val" ["--flag"] [] ["dns"] (by decide)
    (by decide) (by decide)
  have he := h.2 (by decide) (by decide)
  exact ⟨he, h.1 _ he⟩

/-- C5: every resolved, non-skipped addon yields exactly one dispatch of the
script `<action>.<addonName>.sh` with that addon's arguments: in
multi-addon mode once per non-skipped token, in token order; in single-addon
mode exactly once; in particular, with `existing = ["dns", "storage"]` and
tokens `["dns:value1", "storage:value2"]`, it dispatches `enable.dns.sh
value1` then `enable.storage.sh value2`, in that order. -/
theorem C5_dispatch_order (action : String)
    (addons xabled existing : List String) :
    (multiCond addons existing = true →
      ∃ r, xable action addons xabled existing = some r ∧
        dispatches r =
          (addons.filter
              (fun tok => !(decide (tok ∈ xabled ∧ tok ≠ "kubeflow")))).map
            (fun tok => (scriptName action (splitTok tok).1,
              (splitTok tok).2)))
    ∧ (∀ a0 rest r, addons = a0 :: rest →
        multiCond addons existing = false →
        xable action addons xabled existing = some r →
        r.exitCode = none →
        dispatches r = [(scriptName action (splitTok a0).1,
          if (splitTok a0).2 ≠ [] then (splitTok a0).2 else rest)])
    ∧ xable "enable" ["dns:value1", "storage:value2"] [] ["dns", "storage"] =
        some ⟨[.dispatch (scriptName "enable" "dns") ["value1"],
               .dispatch (scriptName "enable" "storage") ["value2"]],
              none⟩ := by
  refine ⟨fun hm => ⟨_, xable_multi action addons xabled existing hm,
    filterMap_dispProj_map_multiStep action xabled addons⟩, ?_, by decide⟩
  rintro a0 rest r rfl hm hr hexit
  rcases xable_single_cases action a0 rest xabled existing hm with
    ⟨h1, _⟩ | ⟨h1, _, _⟩ | ⟨h1, _, _, _, _⟩ | ⟨h1, _, _, ha, _⟩ |
    ⟨h1, _, _, ha⟩
  · rw [h1] at hr
    have := Option.some.inj hr
    subst this
    simp at hexit
  · rw [h1] at hr
    have := Option.some.inj hr
    subst this
    simp at hexit
  · rw [h1] at hr
    have := Option.some.inj hr
    subst this
    simp at hexit
  · rw [h1] at hr
    have := Option.some.inj hr
    subst this
    simp [dispatches, dispProj, ha]
  · rw [h1] at hr
    have := Option.some.inj hr
    subst this
    simp [dispatches, dispProj, ha]

/-- Witness for C5 at the concrete multi-addon scenario of the spec. -/
theorem C5_dispatch_order_witness :
    ∃ r, xable "enable" ["dns:value1", "storage:value2"] []
        ["dns", "storage"] = some r ∧
      dispatches r = [("enable.dns.sh", ["value1"]),
                      ("enable.storage.sh", ["value2"])] := by
  obtain ⟨r, h1, h2⟩ := (C5_dispatch_order "enable"
    ["dns:value1", "storage:value2"] [] ["dns", "storage"]).1 (by decide)
  exact ⟨r, h1, by rw [h2]; decide⟩

/-- C10: a token of the form `name:a:b` is split on every colon: it resolves
to addon `name` with the two positional arguments `a` and `b` rather than
the single argument `a:b`, and this splitting applies identically in
multi-addon mode (the per-token step) and in single-addon mode. -/
theorem C10_colon_splitting (n x y action : String)
    (xabled existing : List String)
    (hn : ∀ ch ∈ n.data, ch ≠ ':') (hx : ∀ ch ∈ x.data, ch ≠ ':')
    (hy : ∀ ch ∈ y.data, ch ≠ ':') :
    splitTok (n ++ ":" ++ x ++ ":" ++ y) = (n, [x, y])
    ∧ multiStep action xabled (n ++ ":" ++ x ++ ":" ++ y) =
        (if (n ++ ":" ++ x ++ ":" ++ y) ∈ xabled ∧
            (n ++ ":" ++ x ++ ":" ++ y) ≠ "kubeflow" then
          .echoMsg (skipMsg (n ++ ":" ++ x ++ ":" ++ y) action)
        else .dispatch (scriptName action n) [x, y])
    ∧ (n ∈ existing → ¬(n ∈ xabled ∧ n ≠ "kubeflow") →
        xable action [n ++ ":" ++ x ++ ":" ++ y] xabled existing =
          some ⟨[.dispatch (scriptName action n) [x, y]], none⟩) := by
  have hsplit := splitTok_two_colons n x y hn hx hy
  refine ⟨hsplit, by simp [multiStep, hsplit], fun hex hskip => ?_⟩
  have hm : multiCond [n ++ ":" ++ x ++ ":" ++ y] existing = false := by
    simp [multiCond]
  have h1 := xable_single_dispatch_colon action (n ++ ":" ++ x ++ ":" ++ y)
    [] xabled existing hm (by rw [hsplit]; exact hskip)
    (by rw [hsplit]; exact hex) (by rw [hsplit]; exact List.cons_ne_nil _ _)
    rfl
  rw [hsplit] at h1
  exact h1

/-- Witness for C10 at the concrete token `"name:a:b"`. -/
theorem C10_colon_splitting_witness :
    splitTok ("name" ++ ":" ++ "a" ++ ":" ++ "b") = ("name", ["a", "b"])
    ∧ xable "enable" ["name" ++ ":" ++ "a" ++ ":" ++ "b"] [] ["name"] =
        some ⟨[.dispatch (scriptName "enable" "name") ["a", "b"]], none⟩ := by
  have h := C10_colon_splitting "name" "a" "b" "enable" [] ["name"]
    (by decide) (by decide) (by decide)
  exact ⟨h.1, h.2.2 (by decide) (by decide)⟩

/-- C6: one readiness sample reports ready iff the nodes listing contains
the literal ready-status token `"Ready"` and the services listing contains
the core service identifier `"service/kubernetes"`; any error raised by the
probe during the sample yields a not-ready result rather than a fatal
failure. -/
theorem C6_readiness_condition :
    (∀ sample : Except Unit (String × String),
      is_cluster_ready sample = true ↔
        ∃ serviceOut nodeOut, sample = .ok (serviceOut, nodeOut)
          ∧ strContains nodeOut "Ready" = true
          ∧ strContains serviceOut "service/kubernetes" = true)
    ∧ ∀ e : Unit, is_cluster_ready (.error e) = false := by
  refine ⟨fun sample => ?_, fun e => rfl⟩
  cases sample with
  | error e => simp [is_cluster_ready]
  | ok p =>
    obtain ⟨svc, nodes⟩ := p
    simp only [is_cluster_ready, Bool.and_eq_true, Except.ok.injEq,
      Prod.mk.injEq]
    constructor
    · rintro ⟨h1, h2⟩
      exact ⟨svc, nodes, ⟨rfl, rfl⟩, h1, h2⟩
    · rintro ⟨s, n, ⟨rfl, rfl⟩, h1, h2⟩
      exact ⟨h1, h2⟩

/-- Witness for C6 at a concrete ready sample and a concrete probe error. -/
theorem C6_readiness_condition_witness :
    is_cluster_ready (.ok ("x service/kubernetes y", "node Ready")) = true
    ∧ is_cluster_ready (.error ()) = false :=
  ⟨(C6_readiness_condition.1 _).mpr ⟨_, _, rfl, by decide, by decide⟩,
    C6_readiness_condition.2 ()⟩

/-- C7: with a positive timeout, if readiness is never observed the poller
terminates with `false` once a clock reading exceeds `start + timeout` (so
only at or after `timeout` seconds of elapsed time, third conjunct); it
returns `true` within one sampling cycle of the first ready sample; and
with `timeout ≤ 0` it polls indefinitely (never terminates) while readiness
is not observed. -/
theorem C7_poller_timeout (timeout : Int) (clock : Nat → Int)
    (probe : Nat → Except Unit (String × String)) :
    ((∀ n, is_cluster_ready (probe n) = false) → 0 < timeout →
      ∀ j, clock 0 + timeout < clock (j + 1) →
        wait_for_ready timeout clock probe (j + 1) = some false)
    ∧ (∀ fuel, wait_for_ready timeout clock probe fuel = some false →
        0 < timeout ∧ ∃ m, clock 0 + timeout < clock m)
    ∧ (∀ k, (∀ n, n < k → is_cluster_ready (probe n) = false) →
        (∀ n, n ≤ k → ¬(0 < timeout ∧ clock 0 + timeout < clock (n + 1))) →
        is_cluster_ready (probe k) = true →
        wait_for_ready timeout clock probe (k + 2) = some true)
    ∧ (timeout ≤ 0 → (∀ n, is_cluster_ready (probe n) = false) →
        ∀ fuel, wait_for_ready timeout clock probe fuel = none) := by
  refine ⟨fun hnever hpos j hj => ?_, fun fuel h => ?_,
    fun k hpre hdl hk => ?_, fun ht hnever fuel => ?_⟩
  · unfold wait_for_ready
    exact waitAux_never_ready timeout (clock 0) clock (clusterSampler probe)
      (fun n => by rw [clusterSampler_eq, hnever n]) hpos j 0
      (by simpa using hj)
  · exact waitAux_false_bound timeout (clock 0) clock (clusterSampler probe)
      fuel 0 false h
  · unfold wait_for_ready
    refine waitAux_ready_exit timeout (clock 0) clock (clusterSampler probe)
      k 0 (fun i hi => ?_) (fun i hi => ?_) ?_
    · rw [clusterSampler_eq]
      rw [Nat.zero_add, hpre i hi]
    · simpa using hdl i hi
    · rw [clusterSampler_eq]
      rw [Nat.zero_add, hk]
  · exact waitAux_no_deadline timeout (clock 0) clock (clusterSampler probe)
      ht (fun n => by rw [clusterSampler_eq, hnever n]) fuel 0

/-- Witness for C7 at a unit-step clock: timeout 5 with a never-ready probe
terminates `false` with fuel 6; an immediately-ready probe returns `true`
after one sample; timeout 0 with a never-ready probe never terminates. -/
theorem C7_poller_timeout_witness :
    wait_for_ready 5 (fun i => (i : Int)) (fun _ => .error ()) 6 = some false
    ∧ wait_for_ready 5 (fun i => (i : Int))
        (fun _ => .ok ("x service/kubernetes", "y Ready")) 2 = some true
    ∧ wait_for_ready 0 (fun i => (i : Int)) (fun _ => .error ()) 17
        = none := by
  refine ⟨?_, ?_, ?_⟩
  · exact (C7_poller_timeout 5 (fun i => (i : Int)) (fun _ => .error ())).1
      (fun n => rfl) (by decide) 5 (by decide)
  · exact (C7_poller_timeout 5 (fun i => (i : Int))
      (fun _ => .ok ("x service/kubernetes", "y Ready"))).2.2.1 0
      (fun n hn => absurd hn (Nat.not_lt_zero n))
      (fun n hn => by
        have hn0 : n = 0 := Nat.le_zero.mp hn
        subst hn0
        decide)
      (by decide)
  · exact (C7_poller_timeout 0 (fun i => (i : Int)) (fun _ => .error ())).2.2.2
      (by decide) (fun n => rfl) 17

/-- C8: the claim says every probe error pauses the loop for 2 time units
before resampling.  In the code, `is_cluster_ready` itself catches every
probe error and returns a false reading, so the sampled call inside
`wait_for_ready` never raises: its `except`-with-sleep arm is unreachable
and a probe error leads to an immediate resample with zero pause.  The
first conjunct shows the sampler is always an `ok` reading (sleep 0); the
remaining conjuncts show the sleep of 2 would occur only for a raising
sample, and that a probe error is converted to a `false` reading instead. -/
theorem C8_probe_error_no_pause :
    (∀ (probe : Nat → Except Unit (String × String)) (n : Nat),
      clusterSampler probe n = .ok (is_cluster_ready (probe n))
      ∧ bodySleep (clusterSampler probe n) = 0)
    ∧ bodySleep (.error ()) = 2
    ∧ is_cluster_ready (.error ()) = false :=
  ⟨fun _ _ => ⟨rfl, rfl⟩, rfl, rfl⟩

/-- C9 counterexample: the existing-addon set is derived from files
matching the literal glob `enable.*.sh` for BOTH actions; for action
`disable` and listing `["enable.dns.sh", "disable.foo.sh"]` the code
derives `["dns"]`, while the claimed `disable.*.sh` derivation would give
`["foo"]`. -/
theorem C9_counterexample :
    deriveExisting ["enable.dns.sh", "disable.foo.sh"] = ["dns"]
    ∧ deriveExistingSpec "disable" ["enable.dns.sh", "disable.foo.sh"]
        = ["foo"]
    ∧ deriveExisting ["enable.dns.sh", "disable.foo.sh"]
        ≠ deriveExistingSpec "disable" ["enable.dns.sh", "disable.foo.sh"] := by
  decide

/-- C9 (amended): for both actions, the existing-addon set is derived from
the filesystem listing of files matching `enable.*.sh` (the action is NOT
interpolated into the pattern), by stripping the 7-character `enable.`
prefix and the `.sh` suffix: a name is in the derived set iff the listing
contains the file `enable.<name>.sh`. -/
theorem C9_derivation (files : List String) (name : String) :
    name ∈ deriveExisting files ↔ ("enable." ++ name ++ ".sh") ∈ files :=
  mem_deriveExisting files name

/-- Witness for C9 (amended) at a concrete one-file listing. -/
theorem C9_derivation_witness :
    "dns" ∈ deriveExisting ["enable.dns.sh"] :=
  (C9_derivation ["enable.dns.sh"] "dns").mpr (by decide)

end Microk8s
